import Mathlib

/-!
Verification of the wardrobe application (`try_main_code.py`).

Strings are modelled at the character-list level (`List Char`), matching
Python's `str` as a sequence of code points.  The external services are
modelled explicitly: object storage and the completion endpoint as
outcome parameters, and the pandas CSV layer as a stored table of cell
texts together with a model of `read_csv`'s default NA conversion and
dtype inference.  The pure orchestration code (prompt serialization,
response extraction and parsing, metadata-table operations) is
translated function by function.
-/

/-- The backtick character, written by code point to keep source plain. -/
def btick : Char := Char.ofNat 96

/-- The apostrophe character, written by code point. -/
def apos : Char := Char.ofNat 39

/-- Python `str.strip()` whitespace: space, tab, newline, carriage return,
vertical tab, form feed (ASCII range; the inputs considered are ASCII). -/
def pySpace (c : Char) : Bool :=
  c == ' ' || c == '\t' || c == '\n' || c == '\r' || c == '\x0b' || c == '\x0c'

/-- Python `str.strip()`: drop leading and trailing whitespace. -/
def pyStrip (l : List Char) : List Char :=
  ((l.dropWhile pySpace).reverse.dropWhile pySpace).reverse

/-- Does the text begin with the fence marker (three backticks)? -/
def isFenceHead : List Char → Bool
  | t1 :: t2 :: t3 :: _ => t1 = btick && t2 = btick && t3 = btick
  | _ => false

/-- Scan left to right for the first occurrence of the fence marker and
return the suffix after it; `none` when the text contains no fence.
`(dropToFence l).isSome` models Python's three-backticks-in-raw test,
and the suffix starts Python's `raw.split(fence)[1]`. -/
def dropToFence : List Char → Option (List Char)
  | [] => none
  | c :: rest =>
    if isFenceHead (c :: rest) then some (rest.drop 2)
    else dropToFence rest

/-- Take characters up to (excluding) the next fence marker, or to the end
of the text when no further fence occurs.  Applied to the suffix returned
by `dropToFence` this is exactly Python's `raw.split(fence)[1]`
(non-overlapping, left-to-right occurrences). -/
def takeToFence : List Char → List Char
  | [] => []
  | c :: rest =>
    if isFenceHead (c :: rest) then []
    else c :: takeToFence rest

/-- Python `raw[4:]` applied when `raw.startswith("json")`, else `raw`. -/
def stripJsonTag (l : List Char) : List Char :=
  match l with
  | 'j' :: 's' :: 'o' :: 'n' :: rest => rest
  | _ => l

/-- The fence-handling step of `get_outfit_suggestions`: when the text
contains a fence marker, keep the segment between the first pair of
fences (or everything after the first fence when it is unpaired), strip
a leading `json` language tag, and strip surrounding whitespace. -/
def fenceStage (raw : List Char) : List Char :=
  match dropToFence raw with
  | some rest => pyStrip (stripJsonTag (takeToFence rest))
  | none => raw

/-- Inner loop of the regex `\[\s*\[.*?\]\s*\]` (with `re.DOTALL`): given
the characters after the second `[`, find the lazily-shortest
`content ++ ] ++ whitespace ++ ]` suffix and return it; `none` when the
closing shape never occurs.  Backtracking inside `\s*` cannot help (no
whitespace character is `]`), so the scan is deterministic. -/
def tailMatch : List Char → Option (List Char)
  | [] => none
  | x :: xs =>
    if x = ']' then
      match xs.dropWhile pySpace with
      | ']' :: _ => some (']' :: (xs.takeWhile pySpace ++ [']']))
      | _ =>
        match tailMatch xs with
        | some m => some (x :: m)
        | none => none
    else
      match tailMatch xs with
      | some m => some (x :: m)
      | none => none

/-- Try to match `\[\s*\[.*?\]\s*\]` at the start of the text, returning
the matched substring (Python's `match.group(0)`). -/
def matchAt : List Char → Option (List Char)
  | '[' :: rest =>
    match rest.dropWhile pySpace with
    | '[' :: rest2 =>
      match tailMatch rest2 with
      | some m => some ('[' :: (rest.takeWhile pySpace ++ '[' :: m))
      | none => none
    | _ => none
  | _ => none

/-- `re.search(r'\[\s*\[.*?\]\s*\]', raw, re.DOTALL)`: try each start
position left to right and return the first match. -/
def reSearchArr : List Char → Option (List Char)
  | [] => none
  | c :: cs =>
    match matchAt (c :: cs) with
    | some m => some m
    | none => reSearchArr cs

/-- JSON values as decoded by `json.loads`.  Numbers are modelled as
integers: the model rejects fraction/exponent forms instead of decoding
floats (no input considered here contains a float). -/
inductive Json where
  | null
  | bool (b : Bool)
  | num (n : Int)
  | str (s : String)
  | arr (xs : List Json)
  | obj (kvs : List (String × Json))

/-- JSON insignificant whitespace (RFC 8259): space, tab, newline, CR. -/
def jsonWs (c : Char) : Bool :=
  c == ' ' || c == '\t' || c == '\n' || c == '\r'

/-- Value of a hexadecimal digit, for `\uXXXX` string escapes. -/
def hexVal (c : Char) : Option Nat :=
  if '0' ≤ c ∧ c ≤ '9' then some (c.toNat - 48)
  else if 'a' ≤ c ∧ c ≤ 'f' then some (c.toNat - 87)
  else if 'A' ≤ c ∧ c ≤ 'F' then some (c.toNat - 55)
  else none

/-- Decode one JSON string escape (the characters after a backslash),
returning the decoded character and the remaining input. -/
def decodeEscape : List Char → Option (Char × List Char)
  | [] => none
  | e :: rest =>
    if e = '"' then some ('"', rest)
    else if e = '\\' then some ('\\', rest)
    else if e = '/' then some ('/', rest)
    else if e = 'b' then some ('\x08', rest)
    else if e = 'f' then some ('\x0c', rest)
    else if e = 'n' then some ('\n', rest)
    else if e = 'r' then some ('\r', rest)
    else if e = 't' then some ('\t', rest)
    else if e = 'u' then
      match rest with
      | h1 :: h2 :: h3 :: h4 :: rest2 =>
        match hexVal h1, hexVal h2, hexVal h3, hexVal h4 with
        | some a, some b, some c, some d =>
          some (Char.ofNat (((a * 16 + b) * 16 + c) * 16 + d), rest2)
        | _, _, _, _ => none
      | _ => none
    else none

/-- Parse the body of a JSON string (after the opening quote) up to the
closing quote; fuelled by the input length. -/
def parseStrChars : Nat → List Char → Option (List Char × List Char)
  | 0, _ => none
  | _ + 1, [] => none
  | fuel + 1, c :: rest =>
    if c = '"' then some ([], rest)
    else if c = '\\' then
      match decodeEscape rest with
      | some (ch, rest2) =>
        match parseStrChars fuel rest2 with
        | some (cs, r) => some (ch :: cs, r)
        | none => none
      | none => none
    else
      match parseStrChars fuel rest with
      | some (cs, r) => some (c :: cs, r)
      | none => none

/-- Numeric value of a digit string. -/
def digitsToNat (l : List Char) : Nat :=
  l.foldl (fun a c => a * 10 + (c.toNat - 48)) 0

/-- Detect a fraction or exponent continuation of a number literal; the
model rejects such (float) literals rather than decoding them. -/
def startsFracExp : List Char → Bool
  | '.' :: _ => true
  | 'e' :: _ => true
  | 'E' :: _ => true
  | _ => false

mutual

/-- Parse one JSON value (after skipping leading whitespace), returning
the value and the remaining input; fuelled recursion. -/
def parseVal : Nat → List Char → Option (Json × List Char)
  | 0, _ => none
  | fuel + 1, l =>
    match l.dropWhile jsonWs with
    | [] => none
    | 'n' :: 'u' :: 'l' :: 'l' :: rest => some (Json.null, rest)
    | 't' :: 'r' :: 'u' :: 'e' :: rest => some (Json.bool true, rest)
    | 'f' :: 'a' :: 'l' :: 's' :: 'e' :: rest => some (Json.bool false, rest)
    | '"' :: rest =>
      match parseStrChars (rest.length + 1) rest with
      | some (cs, r) => some (Json.str (String.mk cs), r)
      | none => none
    | '[' :: rest =>
      match rest.dropWhile jsonWs with
      | ']' :: r2 => some (Json.arr [], r2)
      | _ =>
        match parseVal fuel rest with
        | some (v, r2) =>
          match parseArrTail fuel r2 with
          | some (vs, r3) => some (Json.arr (v :: vs), r3)
          | none => none
        | none => none
    | '\x7b' :: rest =>
      match rest.dropWhile jsonWs with
      | '\x7d' :: r2 => some (Json.obj [], r2)
      | _ =>
        match parseMember fuel rest with
        | some (kv, r2) =>
          match parseObjTail fuel r2 with
          | some (kvs, r3) => some (Json.obj (kv :: kvs), r3)
          | none => none
        | none => none
    | '-' :: rest =>
      match rest.span Char.isDigit with
      | ([], _) => none
      | (ds, r) =>
        if startsFracExp r then none
        else some (Json.num (-(digitsToNat ds : Int)), r)
    | c :: rest =>
      if c.isDigit then
        match (c :: rest).span Char.isDigit with
        | (ds, r) =>
          if startsFracExp r then none
          else some (Json.num (digitsToNat ds : Int), r)
      else none

/-- Parse the continuation of a JSON array after one element: either a
closing bracket or comma-separated further elements. -/
def parseArrTail : Nat → List Char → Option (List Json × List Char)
  | 0, _ => none
  | fuel + 1, l =>
    match l.dropWhile jsonWs with
    | ']' :: r => some ([], r)
    | ',' :: r =>
      match parseVal fuel r with
      | some (v, r2) =>
        match parseArrTail fuel r2 with
        | some (vs, r3) => some (v :: vs, r3)
        | none => none
      | none => none
    | _ => none

/-- Parse one `"key": value` member of a JSON object. -/
def parseMember : Nat → List Char → Option ((String × Json) × List Char)
  | 0, _ => none
  | fuel + 1, l =>
    match l.dropWhile jsonWs with
    | '"' :: rest =>
      match parseStrChars (rest.length + 1) rest with
      | some (cs, r) =>
        match r.dropWhile jsonWs with
        | ':' :: r2 =>
          match parseVal fuel r2 with
          | some (v, r3) => some ((String.mk cs, v), r3)
          | none => none
        | _ => none
      | none => none
    | _ => none

/-- Parse the continuation of a JSON object after one member. -/
def parseObjTail : Nat → List Char → Option (List (String × Json) × List Char)
  | 0, _ => none
  | fuel + 1, l =>
    match l.dropWhile jsonWs with
    | '\x7d' :: r => some ([], r)
    | ',' :: r =>
      match parseMember fuel r with
      | some (kv, r2) =>
        match parseObjTail fuel r2 with
        | some (kvs, r3) => some (kv :: kvs, r3)
        | none => none
      | none => none
    | _ => none

end

/-- `json.loads`: parse one value, require only whitespace afterwards;
`none` models `json.JSONDecodeError`. -/
def json_loads (l : List Char) : Option Json :=
  match parseVal (l.length + 1) l with
  | some (v, rest) => if rest.dropWhile jsonWs = [] then some v else none
  | none => none

/-- The extraction pipeline of `get_outfit_suggestions` applied to the
completion-response text: `strip`, fence handling, then replacement by
the first regex match for a JSON array-of-arrays shape when one exists. -/
def extract_candidate (text : String) : List Char :=
  let raw0 := pyStrip text.data
  let raw1 := fenceStage raw0
  match reSearchArr raw1 with
  | some m => m
  | none => raw1

/-- Outcome of `get_outfit_suggestions`: `ok` returns the decoded
outfits; `parseError` is the `json.JSONDecodeError` branch (the function
shows the candidate text via `st.code` and returns `None`);
`requestError` is the generic exception branch for completion-capability
failures (network, auth, quota), showing the error and returning `None`. -/
inductive SuggestResult where
  | ok (outfits : Json)
  | parseError (raw : String)
  | requestError (msg : String)

/-- `get_outfit_suggestions`, with the external completion call modelled
as its outcome: `Except.error e` when the API call raises with message
`e`, `Except.ok text` when it returns response text `text`. -/
def get_outfit_suggestions_model (resp : Except String String) : SuggestResult :=
  match resp with
  | Except.error e => SuggestResult.requestError e
  | Except.ok content =>
    let cand := extract_candidate content
    match json_loads cand with
    | some v => SuggestResult.ok v
    | none => SuggestResult.parseError (String.mk cand)

/-- One row of the metadata table.  The CSV columns are, in order,
`Image URL`, `Public ID`, `Category`, `Color`, `Season`. -/
structure WardrobeItem where
  imageUrl : String
  publicId : String
  category : String
  color : String
  season : String
deriving DecidableEq

/-- `REQUIRED_COLUMNS` from the source. -/
def REQUIRED_COLUMNS : List String :=
  ["Image URL", "Public ID", "Category", "Color", "Season"]

/-- State of the metadata CSV file: absent, or present with a column
header and rows holding the cell texts as written by `to_csv`.  Extra
columns beyond the required five carry no modelled data. -/
inductive MetaFile where
  | absent
  | stored (cols : List String) (rows : List WardrobeItem)

/-- Columns of the DataFrame produced by reading the file: the stored
header when it contains every required column, else the canonical
`REQUIRED_COLUMNS` schema of the fresh empty frame. -/
def loadedColumns : MetaFile → List String
  | MetaFile.absent => REQUIRED_COLUMNS
  | MetaFile.stored cols _ =>
    if REQUIRED_COLUMNS.all (fun c => cols.contains c) then cols
    else REQUIRED_COLUMNS

/-- `load_metadata`, string-level view: all rows (as their stored cell
texts) when the file exists and has the required columns, else the
empty table (missing file or missing columns).  Total: a missing file
never raises.  `read_csv`'s cell conversion (NA sentinels, dtype
inference) is modelled separately by `load_metadata_cells` below; the
claims stated against this string-level view use only row count, row
order and field positions, which the conversion does not change. -/
def load_metadata : MetaFile → List WardrobeItem
  | MetaFile.absent => []
  | MetaFile.stored cols rows =>
    if REQUIRED_COLUMNS.all (fun c => cols.contains c) then rows
    else []

/-- `save_metadata`: read the current table (same fallback as
`load_metadata`), append the one new row, and rewrite the file. -/
def save_metadata (st : MetaFile) (item : WardrobeItem) : MetaFile :=
  MetaFile.stored (loadedColumns st) (load_metadata st ++ [item])

/-- Result of `delete_item`: the file state after the call, the
Cloudinary `destroy` calls made (by public id), and the warnings shown. -/
structure DeleteResult where
  newState : MetaFile
  destroyCalls : List String
  warnings : List String

/-- `delete_item`, with the Cloudinary `destroy` call modelled by
`destroyRaises`: `destroyRaises pid = some e` means `destroy pid` raises
an exception with message `e`, `none` means it succeeds.  When the index
is a valid row position the row's public id is destroyed (a failure is
downgraded to a warning), the row is dropped and the table rewritten;
otherwise nothing happens. -/
def delete_item (destroyRaises : String → Option String) (st : MetaFile)
    (index : Nat) : DeleteResult :=
  if h : index < (load_metadata st).length then
    ⟨MetaFile.stored (loadedColumns st) ((load_metadata st).eraseIdx index),
     [((load_metadata st).get ⟨index, h⟩).publicId],
     match destroyRaises ((load_metadata st).get ⟨index, h⟩).publicId with
     | some e => ["Could not delete from Cloudinary: " ++ e]
     | none => []⟩
  else ⟨st, [], []⟩

/-- The default NA sentinels of `pd.read_csv` (its documented
`na_values`): a cell equal to one of these reads back as missing (NaN),
not as the original string. -/
def NA_VALUES : List String :=
  ["", "#N/A", "#N/A N/A", "#NA", "-1.#IND", "-1.#QNAN", "-NaN", "-nan",
   "1.#IND", "1.#QNAN", "<NA>", "N/A", "NA", "NULL", "NaN", "None",
   "n/a", "nan", "null"]

/-- Does `read_csv` parse this cell text as an integer (optional sign,
one or more digits)? -/
def isIntCell (s : String) : Bool :=
  match s.data with
  | '-' :: ds => !ds.isEmpty && ds.all Char.isDigit
  | '+' :: ds => !ds.isEmpty && ds.all Char.isDigit
  | ds => !ds.isEmpty && ds.all Char.isDigit

/-- The integer value `read_csv` decodes from an integer-looking cell. -/
def parseIntCell (s : String) : Int :=
  match s.data with
  | '-' :: ds => -(digitsToNat ds : Int)
  | '+' :: ds => (digitsToNat ds : Int)
  | ds => (digitsToNat ds : Int)

/-- Does `read_csv` parse this cell text as a boolean? -/
def isBoolCell (s : String) : Bool :=
  s == "True" || s == "False" || s == "TRUE" || s == "FALSE" ||
  s == "true" || s == "false"

/-- ASCII lowercasing of one character. -/
def lowerChar (c : Char) : Char :=
  if 'A' ≤ c ∧ c ≤ 'Z' then Char.ofNat (c.toNat + 32) else c

/-- A generous detector of cell texts that `read_csv` might parse as a
float (digit/sign/dot/exponent characters only, or an infinity
spelling).  Used only as an exclusion hypothesis: the model below keeps
such cells as text (float64 inference is not modelled), so the amended
round-trip claim excludes them to remain true of the program and not
merely of the model. -/
def isFloatLikeCell (s : String) : Bool :=
  (!s.data.isEmpty && s.data.all fun c =>
      c.isDigit || c == '.' || c == 'e' || c == 'E' || c == '+' || c == '-') ||
  (s.data.map lowerChar) == "inf".data ||
  (s.data.map lowerChar) == "-inf".data ||
  (s.data.map lowerChar) == "+inf".data ||
  (s.data.map lowerChar) == "infinity".data ||
  (s.data.map lowerChar) == "-infinity".data ||
  (s.data.map lowerChar) == "+infinity".data

/-- A cell of the DataFrame `read_csv` actually produces: missing (NaN),
an inferred integer, an inferred boolean, or the verbatim string of an
object-dtype column. -/
inductive Cell where
  | na
  | int (v : Int)
  | bool (v : Bool)
  | str (v : String)
deriving DecidableEq

/-- `read_csv`'s per-column conversion with default settings: NA
sentinels become missing in every column; a column whose cells are all
NA-or-integer text becomes numeric (values preserved, NA cells
missing); a column whose cells are all NA-or-boolean text becomes
boolean; any other column keeps its non-NA cells as verbatim strings.
Float64 inference (a column of float-looking text) is not modelled:
such cells are kept as text, and no theorem below relies on that case. -/
def readColumn (cells : List String) : List Cell :=
  if cells.all (fun s => NA_VALUES.contains s || isIntCell s) then
    cells.map (fun s =>
      if NA_VALUES.contains s then Cell.na else Cell.int (parseIntCell s))
  else if cells.all (fun s => NA_VALUES.contains s || isBoolCell s) then
    cells.map (fun s =>
      if NA_VALUES.contains s then Cell.na
      else Cell.bool (s == "True" || s == "TRUE" || s == "true"))
  else
    cells.map (fun s =>
      if NA_VALUES.contains s then Cell.na else Cell.str s)

/-- One row of the DataFrame as `read_csv` actually materializes it. -/
structure ReadRow where
  imageUrl : Cell
  publicId : Cell
  category : Cell
  color : Cell
  season : Cell
deriving DecidableEq

/-- Recombine the five converted columns into rows. -/
def zip5 : List Cell → List Cell → List Cell → List Cell → List Cell →
    List ReadRow
  | a :: as, b :: bs, c :: cs, d :: ds, e :: es =>
    ⟨a, b, c, d, e⟩ :: zip5 as bs cs ds es
  | _, _, _, _, _ => []

/-- The DataFrame cells `read_csv` produces from the file `to_csv` wrote
for this table: each of the five columns converted independently (CSV
quoting is assumed to round-trip the cell text itself verbatim). -/
def read_csv_rows (rows : List WardrobeItem) : List ReadRow :=
  zip5 (readColumn (rows.map WardrobeItem.imageUrl))
       (readColumn (rows.map WardrobeItem.publicId))
       (readColumn (rows.map WardrobeItem.category))
       (readColumn (rows.map WardrobeItem.color))
       (readColumn (rows.map WardrobeItem.season))

/-- Cell-level view of `load_metadata`: the rows the program's
`pd.read_csv` actually produces from the stored file, including NA
conversion and dtype inference.  The string-level `load_metadata` above
is the structural (row-count and order) view used by the delete and
schema claims, which do not depend on cell fidelity. -/
def load_metadata_cells (st : MetaFile) : List ReadRow :=
  read_csv_rows (load_metadata st)

/-- The read row of an item none of whose fields coerce: all five cells
verbatim strings. -/
def strRow (r : WardrobeItem) : ReadRow :=
  ⟨Cell.str r.imageUrl, Cell.str r.publicId, Cell.str r.category,
   Cell.str r.color, Cell.str r.season⟩

/-- A field is plain when `read_csv` keeps it as text: not an NA
sentinel, not integer-, boolean- or float-looking. -/
def plainField (s : String) : Prop :=
  NA_VALUES.contains s = false ∧ isIntCell s = false ∧
  isBoolCell s = false ∧ isFloatLikeCell s = false

instance (s : String) : Decidable (plainField s) := by
  unfold plainField; infer_instance

/-- All five fields of a row are plain. -/
def plainRow (r : WardrobeItem) : Prop :=
  plainField r.imageUrl ∧ plainField r.publicId ∧ plainField r.category ∧
  plainField r.color ∧ plainField r.season

instance (r : WardrobeItem) : Decidable (plainRow r) := by
  unfold plainRow; infer_instance

/-- The serialized line for one wardrobe row: the `Image URL`,
`Category`, `Color` and `Season` fields joined by commas (the f-string
of `get_outfit_suggestions`). -/
def rowLine (r : WardrobeItem) : List Char :=
  List.intercalate [','] [r.imageUrl.data, r.category.data, r.color.data, r.season.data]

/-- The wardrobe serialization `clothes_list` of `get_outfit_suggestions`:
one line per row in table order, joined by newlines. -/
def serialize_wardrobe (df : List WardrobeItem) : List Char :=
  List.intercalate ['\n'] (df.map rowLine)

/-- Split a character list at every occurrence of a separator character
(Python `str.split(sep)` for a one-character separator): used to state
what "lines" and "fields" the serialization produces. -/
def splitOnChar (sep : Char) : List Char → List (List Char)
  | [] => [[]]
  | c :: rest =>
    if c = sep then [] :: splitOnChar sep rest
    else
      match splitOnChar sep rest with
      | h :: t => (c :: h) :: t
      | [] => [[c]]

/-- A row is clean when none of its four serialized fields contains a
newline or a comma, so the line and field structure of the serialization
is unambiguous. -/
def cleanRow (r : WardrobeItem) : Prop :=
  ('\n' ∉ r.imageUrl.data ∧ ',' ∉ r.imageUrl.data) ∧
  ('\n' ∉ r.category.data ∧ ',' ∉ r.category.data) ∧
  ('\n' ∉ r.color.data ∧ ',' ∉ r.color.data) ∧
  ('\n' ∉ r.season.data ∧ ',' ∉ r.season.data)

instance (r : WardrobeItem) : Decidable (cleanRow r) := by
  unfold cleanRow; infer_instance

/-- The one-row scenario table of the spec (url `https://x/a.png`,
id `a`, Shirts/Blue/Summer), used by several witnesses. -/
def oneRowStore : MetaFile :=
  MetaFile.stored REQUIRED_COLUMNS
    [⟨"https://x/a.png", "a", "Shirts", "Blue", "Summer"⟩]

/-- A second, plain-field item used by the C5 witness. -/
def plainItem : WardrobeItem :=
  ⟨"https://x/b.png", "b", "Pants", "Black", "Winter"⟩

/-- Shape check used only in statements: is a decoded value a list of
lists of strings (the expected outfit shape)?  The code performs no such
validation. -/
def isOutfitList : Json → Bool
  | Json.arr xs =>
    xs.all fun o =>
      match o with
      | Json.arr ys =>
        ys.all fun s =>
          match s with
          | Json.str _ => true
          | _ => false
      | _ => false
  | _ => false

/-! ## Theorems -/

/-- The loaded DataFrame always has every required column: either the
stored header passed the check, or the canonical schema was substituted. -/
theorem required_all_loadedColumns (st : MetaFile) :
    REQUIRED_COLUMNS.all (fun c => (loadedColumns st).contains c) = true := by
  cases st with
  | absent => decide
  | stored cols rows =>
    simp only [loadedColumns]
    cases hb : REQUIRED_COLUMNS.all fun c => cols.contains c with
    | true => exact hb
    | false =>
      exact (by decide :
        (REQUIRED_COLUMNS.all fun c => REQUIRED_COLUMNS.contains c) = true)

/-- Reading back a file written with the loaded columns returns exactly
the written rows. -/
theorem load_metadata_stored_loadedColumns (st : MetaFile)
    (rows : List WardrobeItem) :
    load_metadata (MetaFile.stored (loadedColumns st) rows) = rows := by
  simp only [load_metadata]
  rw [if_pos (required_all_loadedColumns st)]

/-- Claim C1: for the completion-response text given in each of the three
shapes — the raw JSON array alone, the array wrapped in triple-fence
markers with a leading `json` language tag, and the array surrounded by
extraneous prose — the extraction-and-parse pipeline of
`get_outfit_suggestions` yields exactly the decoded value
`[["a","b"],["c"]]`. -/
theorem c1_extraction_three_shapes :
    get_outfit_suggestions_model (Except.ok "[[\"a\",\"b\"],[\"c\"]]") =
      SuggestResult.ok (Json.arr [Json.arr [Json.str "a", Json.str "b"],
        Json.arr [Json.str "c"]]) ∧
    get_outfit_suggestions_model (Except.ok "```json\n[[\"a\",\"b\"],[\"c\"]]\n```") =
      SuggestResult.ok (Json.arr [Json.arr [Json.str "a", Json.str "b"],
        Json.arr [Json.str "c"]]) ∧
    get_outfit_suggestions_model
        (Except.ok "Here are your outfits: [[\"a\",\"b\"],[\"c\"]] Hope this helps!") =
      SuggestResult.ok (Json.arr [Json.arr [Json.str "a", Json.str "b"],
        Json.arr [Json.str "c"]]) :=
  ⟨rfl, rfl, rfl⟩

/-- Claim C2: whenever the extraction pipeline leaves text from which
`json.loads` cannot decode a value, `get_outfit_suggestions` signals the
distinct unparseable-response failure carrying the candidate text for
diagnostic display and returns no outfits; the generic
completion-capability failure is a different outcome. -/
theorem c2_unparseable_is_distinct_failure (text : String)
    (h : json_loads (extract_candidate text) = none) :
    get_outfit_suggestions_model (Except.ok text) =
      SuggestResult.parseError (String.mk (extract_candidate text)) ∧
    (∀ v, get_outfit_suggestions_model (Except.ok text) ≠ SuggestResult.ok v) ∧
    (∀ e, get_outfit_suggestions_model (Except.error e) =
        SuggestResult.requestError e ∧
      SuggestResult.parseError (String.mk (extract_candidate text)) ≠
        SuggestResult.requestError e) := by
  have hstep : get_outfit_suggestions_model (Except.ok text) =
      (match json_loads (extract_candidate text) with
        | some v => SuggestResult.ok v
        | none => SuggestResult.parseError (String.mk (extract_candidate text))) :=
    rfl
  have hmain : get_outfit_suggestions_model (Except.ok text) =
      SuggestResult.parseError (String.mk (extract_candidate text)) := by
    rw [hstep, h]
  refine ⟨hmain, ?_, ?_⟩
  · intro v hv
    rw [hmain] at hv
    exact SuggestResult.noConfusion hv
  · intro e
    exact ⟨rfl, fun hv => SuggestResult.noConfusion hv⟩

/-- The refusal text of the C2 scenario (no bracket structure present). -/
def refusalText : String :=
  "Sorry, I can" ++ String.mk [apos] ++ "t help with that."

/-- Witness for C2 at the concrete refusal text: nothing is parseable,
the pipeline leaves the text unchanged, and the instantiated conclusion
holds. -/
theorem c2_unparseable_witness :
    json_loads (extract_candidate refusalText) = none ∧
    extract_candidate refusalText = refusalText.data ∧
    (get_outfit_suggestions_model (Except.ok refusalText) =
      SuggestResult.parseError (String.mk (extract_candidate refusalText)) ∧
    (∀ v, get_outfit_suggestions_model (Except.ok refusalText) ≠ SuggestResult.ok v) ∧
    (∀ e, get_outfit_suggestions_model (Except.error e) =
        SuggestResult.requestError e ∧
      SuggestResult.parseError (String.mk (extract_candidate refusalText)) ≠
        SuggestResult.requestError e)) :=
  ⟨rfl, rfl, c2_unparseable_is_distinct_failure refusalText rfl⟩

/-- Claim C10: on parse success the decoded value is returned with no
shape validation: the response text `[1, 2]` (a JSON array of numbers,
containing no array-of-arrays substring) is returned as-is, and it is
not a list of lists of strings. -/
theorem c10_no_shape_validation :
    get_outfit_suggestions_model (Except.ok "[1, 2]") =
      SuggestResult.ok (Json.arr [Json.num 1, Json.num 2]) ∧
    isOutfitList (Json.arr [Json.num 1, Json.num 2]) = false :=
  ⟨rfl, rfl⟩

/-- A fence marker cannot start at a character that is not a backtick. -/
theorem isFenceHead_false_of_head (c : Char) (xs : List Char)
    (hc : c ≠ btick) : isFenceHead (c :: xs) = false := by
  cases xs with
  | nil => rfl
  | cons d ys =>
    cases ys with
    | nil => rfl
    | cons e zs => simp [isFenceHead, hc]

/-- Scanning a backtick-free prefix, the fence search lands exactly on
the first fence marker and returns everything after it. -/
theorem dropToFence_append (a b : List Char) (ha : btick ∉ a) :
    dropToFence (a ++ btick :: btick :: btick :: b) = some b := by
  induction a with
  | nil => simp [dropToFence, isFenceHead]
  | cons c a ih =>
    have hc : c ≠ btick := fun h => ha (h ▸ List.mem_cons_self c a)
    have ha2 : btick ∉ a := fun h => ha (List.mem_cons_of_mem c h)
    rw [List.cons_append]
    simp [dropToFence, isFenceHead_false_of_head c _ hc]
    exact ih ha2

/-- A backtick-free segment before the next fence marker is kept whole. -/
theorem takeToFence_append (b c : List Char) (hb : btick ∉ b) :
    takeToFence (b ++ btick :: btick :: btick :: c) = b := by
  induction b with
  | nil => simp [takeToFence, isFenceHead]
  | cons x xs ih =>
    have hx : x ≠ btick := fun h => hb (h ▸ List.mem_cons_self x xs)
    have hb2 : btick ∉ xs := fun h => hb (List.mem_cons_of_mem x h)
    rw [List.cons_append]
    simp [takeToFence, isFenceHead_false_of_head x _ hx]
    exact ih hb2

/-- Claim C4: for a text containing a fenced code block (a backtick-free
prefix, a first fence, backtick-free content, a second fence, and a
tail), the fence-handling step extracts exactly the content between the
first pair of fence markers, and when that content begins with the
language tag `json` the tag is stripped before further processing. -/
theorem c4_fence_extraction (a b c tail : List Char)
    (ha : btick ∉ a) (hb : btick ∉ b) :
    fenceStage (a ++ btick :: btick :: btick :: (b ++ btick :: btick :: btick :: c)) =
      pyStrip (stripJsonTag b) ∧
    (b = 'j' :: 's' :: 'o' :: 'n' :: tail →
      fenceStage (a ++ btick :: btick :: btick :: (b ++ btick :: btick :: btick :: c)) =
        pyStrip tail) := by
  have h1 : dropToFence
      (a ++ btick :: btick :: btick :: (b ++ btick :: btick :: btick :: c)) =
      some (b ++ btick :: btick :: btick :: c) := dropToFence_append a _ ha
  have h2 : takeToFence (b ++ btick :: btick :: btick :: c) = b :=
    takeToFence_append b c hb
  have h3 : fenceStage
      (a ++ btick :: btick :: btick :: (b ++ btick :: btick :: btick :: c)) =
      pyStrip (stripJsonTag b) := by
    unfold fenceStage
    rw [h1]
    show pyStrip (stripJsonTag (takeToFence (b ++ btick :: btick :: btick :: c))) =
      pyStrip (stripJsonTag b)
    rw [h2]
  refine ⟨h3, fun hbj => ?_⟩
  subst hbj
  exact h3

/-- Witness for C4 at a concrete fenced response text. -/
theorem c4_fence_extraction_witness :
    btick ∉ ("Answer: ".data) ∧ btick ∉ ("json\n[[1]]\n".data) ∧
    (fenceStage ("Answer: ".data ++ btick :: btick :: btick ::
        ("json\n[[1]]\n".data ++ btick :: btick :: btick :: " trailing".data)) =
      pyStrip (stripJsonTag ("json\n[[1]]\n".data)) ∧
    ("json\n[[1]]\n".data = 'j' :: 's' :: 'o' :: 'n' :: "\n[[1]]\n".data →
      fenceStage ("Answer: ".data ++ btick :: btick :: btick ::
          ("json\n[[1]]\n".data ++ btick :: btick :: btick :: " trailing".data)) =
        pyStrip ("\n[[1]]\n".data))) :=
  ⟨by decide, by decide,
    c4_fence_extraction ("Answer: ".data) ("json\n[[1]]\n".data)
      (" trailing".data) ("\n[[1]]\n".data) (by decide) (by decide)⟩

/-- The serialized row line written out as plain concatenation. -/
theorem rowLine_eq (r : WardrobeItem) :
    rowLine r = r.imageUrl.data ++ ',' :: r.category.data ++ ',' ::
      r.color.data ++ ',' :: r.season.data := by
  simp [rowLine, List.intercalate]

/-- A clean row's serialized line contains no newline. -/
theorem newline_not_mem_rowLine (r : WardrobeItem) (h : cleanRow r) :
    '\n' ∉ rowLine r := by
  rw [rowLine_eq]
  rcases h with ⟨⟨h1, _⟩, ⟨h2, _⟩, ⟨h3, _⟩, ⟨h4, _⟩⟩
  have hc : ('\n' : Char) ≠ ',' := by decide
  simp [List.mem_append, List.mem_cons, h1, h2, h3, h4, hc]

/-- Claim C3 as stated is false on the code: a field containing a newline
produces an extra line, so the serialization of this one-row table does
not split into exactly one newline-separated line. -/
theorem c3_counterexample :
    ¬ (((serialize_wardrobe
        [⟨"https://x/a.png", "a", "Sh\nirts", "Blue", "Summer"⟩]).splitOn '\n').length =
      ([⟨"https://x/a.png", "a", "Sh\nirts", "Blue", "Summer"⟩] :
        List WardrobeItem).length) := by
  decide

/-- Claim C3 amended: the empty table serializes to the empty string, and
for a nonempty table whose fields contain no newline and no comma the
serialization splits into exactly `len(T)` newline-separated lines, the
`i`-th line splitting into exactly the 4 comma-joined fields
`imageUrl, category, color, season` of row `i`, in table row order. -/
theorem c3_serialization_amended (df : List WardrobeItem)
    (hclean : ∀ r ∈ df, cleanRow r) :
    serialize_wardrobe [] = [] ∧
    (df ≠ [] →
      ((serialize_wardrobe df).splitOn '\n').map (fun line => line.splitOn ',') =
        df.map (fun r =>
          [r.imageUrl.data, r.category.data, r.color.data, r.season.data]) ∧
      ((serialize_wardrobe df).splitOn '\n').length = df.length) := by
  refine ⟨rfl, fun hne => ?_⟩
  have hlines : (serialize_wardrobe df).splitOn '\n' = df.map rowLine := by
    apply List.splitOn_intercalate
    · intro l hl
      rcases List.mem_map.mp hl with ⟨r, hr, rfl⟩
      exact newline_not_mem_rowLine r (hclean r hr)
    · simpa using hne
  constructor
  · rw [hlines, List.map_map]
    apply List.map_congr_left
    intro r hr
    rcases hclean r hr with ⟨⟨_, h1⟩, ⟨_, h2⟩, ⟨_, h3⟩, ⟨_, h4⟩⟩
    show (rowLine r).splitOn ',' = _
    refine List.splitOn_intercalate
      [r.imageUrl.data, r.category.data, r.color.data, r.season.data] ','
      ?_ (by simp)
    intro l hl
    simp only [List.mem_cons, List.not_mem_nil, or_false] at hl
    rcases hl with rfl | rfl | rfl | rfl
    · exact h1
    · exact h2
    · exact h3
    · exact h4
  · rw [hlines, List.length_map]

/-- Witness for the amended C3 at a concrete two-row table. -/
theorem c3_serialization_amended_witness :
    (∀ r ∈ ([⟨"https://x/a.png", "a", "Shirts", "Blue", "Summer"⟩,
             ⟨"https://x/b.png", "b", "Pants", "Black", "Winter"⟩] :
        List WardrobeItem), cleanRow r) ∧
    (serialize_wardrobe [] = [] ∧
    (([⟨"https://x/a.png", "a", "Shirts", "Blue", "Summer"⟩,
       ⟨"https://x/b.png", "b", "Pants", "Black", "Winter"⟩] :
        List WardrobeItem) ≠ [] →
      ((serialize_wardrobe
          [⟨"https://x/a.png", "a", "Shirts", "Blue", "Summer"⟩,
           ⟨"https://x/b.png", "b", "Pants", "Black", "Winter"⟩]).splitOn '\n').map
          (fun line => line.splitOn ',') =
        ([⟨"https://x/a.png", "a", "Shirts", "Blue", "Summer"⟩,
          ⟨"https://x/b.png", "b", "Pants", "Black", "Winter"⟩] :
            List WardrobeItem).map (fun r =>
          [r.imageUrl.data, r.category.data, r.color.data, r.season.data]) ∧
      ((serialize_wardrobe
          [⟨"https://x/a.png", "a", "Shirts", "Blue", "Summer"⟩,
           ⟨"https://x/b.png", "b", "Pants", "Black", "Winter"⟩]).splitOn '\n').length =
        ([⟨"https://x/a.png", "a", "Shirts", "Blue", "Summer"⟩,
          ⟨"https://x/b.png", "b", "Pants", "Black", "Winter"⟩] :
            List WardrobeItem).length)) :=
  ⟨by decide, c3_serialization_amended _ (by decide)⟩

/-- A column of plain fields is kept as verbatim strings by the
`read_csv` conversion. -/
theorem readColumn_plain (cells : List String)
    (h : ∀ s ∈ cells, plainField s) :
    readColumn cells = cells.map Cell.str := by
  unfold readColumn
  cases cells with
  | nil => rfl
  | cons c cs =>
    obtain ⟨hna, hint, hbool, _⟩ := h c (List.mem_cons_self c cs)
    rw [if_neg (by simp only [List.all_cons]; rw [hna, hint]; simp),
        if_neg (by simp only [List.all_cons]; rw [hna, hbool]; simp)]
    apply List.map_congr_left
    intro s hs
    have hna2 : s ∉ NA_VALUES := by simpa using (h s hs).1
    simp [hna2]

/-- Recombining the five string-kept columns restores the rows. -/
theorem zip5_map (rows : List WardrobeItem) :
    zip5 (rows.map (Cell.str ∘ WardrobeItem.imageUrl))
         (rows.map (Cell.str ∘ WardrobeItem.publicId))
         (rows.map (Cell.str ∘ WardrobeItem.category))
         (rows.map (Cell.str ∘ WardrobeItem.color))
         (rows.map (Cell.str ∘ WardrobeItem.season)) = rows.map strRow := by
  induction rows with
  | nil => rfl
  | cons r rs ih =>
    simp only [List.map_cons, Function.comp_apply, zip5, strRow]
    rw [ih]

/-- A table all of whose fields are plain reads back verbatim. -/
theorem read_csv_rows_plain (rows : List WardrobeItem)
    (h : ∀ r ∈ rows, plainRow r) :
    read_csv_rows rows = rows.map strRow := by
  unfold read_csv_rows
  rw [readColumn_plain (rows.map WardrobeItem.imageUrl) (by
        intro s hs; rcases List.mem_map.mp hs with ⟨r, hr, rfl⟩
        exact (h r hr).1),
      readColumn_plain (rows.map WardrobeItem.publicId) (by
        intro s hs; rcases List.mem_map.mp hs with ⟨r, hr, rfl⟩
        exact (h r hr).2.1),
      readColumn_plain (rows.map WardrobeItem.category) (by
        intro s hs; rcases List.mem_map.mp hs with ⟨r, hr, rfl⟩
        exact (h r hr).2.2.1),
      readColumn_plain (rows.map WardrobeItem.color) (by
        intro s hs; rcases List.mem_map.mp hs with ⟨r, hr, rfl⟩
        exact (h r hr).2.2.2.1),
      readColumn_plain (rows.map WardrobeItem.season) (by
        intro s hs; rcases List.mem_map.mp hs with ⟨r, hr, rfl⟩
        exact (h r hr).2.2.2.2)]
  rw [List.map_map, List.map_map, List.map_map, List.map_map, List.map_map]
  exact zip5_map rows

/-- Claim C8: when the backing file is absent, or exists but is missing a
required column, loading returns the empty table with the canonical
schema, and (being a total function) never raises for a missing file. -/
theorem c8_load_missing_or_malformed (cols : List String)
    (rows : List WardrobeItem)
    (h : ¬ REQUIRED_COLUMNS.all (fun c => cols.contains c) = true) :
    load_metadata MetaFile.absent = [] ∧
    loadedColumns MetaFile.absent = REQUIRED_COLUMNS ∧
    load_metadata (MetaFile.stored cols rows) = [] ∧
    loadedColumns (MetaFile.stored cols rows) = REQUIRED_COLUMNS := by
  refine ⟨rfl, rfl, ?_, ?_⟩
  · simp only [load_metadata]
    rw [if_neg h]
  · simp only [loadedColumns]
    rw [if_neg h]

/-- Witness for C8 at a header missing most required columns. -/
theorem c8_load_missing_or_malformed_witness :
    ¬ REQUIRED_COLUMNS.all (fun c => (["Image URL"] : List String).contains c) = true ∧
    (load_metadata MetaFile.absent = [] ∧
    loadedColumns MetaFile.absent = REQUIRED_COLUMNS ∧
    load_metadata (MetaFile.stored ["Image URL"] []) = [] ∧
    loadedColumns (MetaFile.stored ["Image URL"] []) = REQUIRED_COLUMNS) :=
  ⟨by decide, c8_load_missing_or_malformed ["Image URL"] [] (by decide)⟩

/-- Claim C6: deleting at a valid position removes exactly that row,
preserving the relative order of all other rows (the persisted table is
the prefix before the row followed by the suffix after it), shrinks the
table by one, and invokes the asset-store delete exactly once, with that
row's public id. -/
theorem c6_delete_valid (f : String → Option String) (st : MetaFile)
    (i : Nat) (h : i < (load_metadata st).length) :
    load_metadata (delete_item f st i).newState =
      (load_metadata st).take i ++ (load_metadata st).drop (i + 1) ∧
    (load_metadata (delete_item f st i).newState).length =
      (load_metadata st).length - 1 ∧
    (delete_item f st i).destroyCalls =
      [((load_metadata st).get ⟨i, h⟩).publicId] := by
  have hd : delete_item f st i =
      ⟨MetaFile.stored (loadedColumns st) ((load_metadata st).eraseIdx i),
       [((load_metadata st).get ⟨i, h⟩).publicId],
       match f ((load_metadata st).get ⟨i, h⟩).publicId with
       | some e => ["Could not delete from Cloudinary: " ++ e]
       | none => []⟩ := by
    unfold delete_item
    rw [dif_pos h]
  refine ⟨?_, ?_, ?_⟩
  · rw [hd]
    show load_metadata (MetaFile.stored (loadedColumns st)
      ((load_metadata st).eraseIdx i)) = _
    rw [load_metadata_stored_loadedColumns, List.eraseIdx_eq_take_drop_succ]
  · rw [hd]
    show (load_metadata (MetaFile.stored (loadedColumns st)
      ((load_metadata st).eraseIdx i))).length = _
    rw [load_metadata_stored_loadedColumns, List.length_eraseIdx, if_pos h]
  · rw [hd]

/-- Witness for C6: the one-row scenario; `deleteAt(0)` empties the table
and the asset-store delete is invoked exactly once, with id `a`. -/
theorem c6_delete_valid_witness :
    0 < (load_metadata oneRowStore).length ∧
    (load_metadata (delete_item (fun _ => none) oneRowStore 0).newState =
      (load_metadata oneRowStore).take 0 ++ (load_metadata oneRowStore).drop 1 ∧
    (load_metadata (delete_item (fun _ => none) oneRowStore 0).newState).length =
      (load_metadata oneRowStore).length - 1 ∧
    (delete_item (fun _ => none) oneRowStore 0).destroyCalls =
      [((load_metadata oneRowStore).get ⟨0, by decide⟩).publicId]) ∧
    (delete_item (fun _ => none) oneRowStore 0).destroyCalls = ["a"] ∧
    load_metadata (delete_item (fun _ => none) oneRowStore 0).newState = [] :=
  ⟨by decide, c6_delete_valid (fun _ => none) oneRowStore 0 (by decide), rfl, rfl⟩

/-- Claim C7: deleting at an out-of-range position is a no-op: the
persisted state is unchanged, no asset-store delete is invoked, no
warning is shown, and (being a total function) nothing is raised. -/
theorem c7_delete_out_of_range (f : String → Option String) (st : MetaFile)
    (i : Nat) (h : ¬ i < (load_metadata st).length) :
    delete_item f st i = ⟨st, [], []⟩ := by
  unfold delete_item
  rw [dif_neg h]

/-- Witness for C7: deleting from an absent (empty) store at position 3. -/
theorem c7_delete_out_of_range_witness :
    ¬ (3 < (load_metadata MetaFile.absent).length) ∧
    delete_item (fun _ => none) MetaFile.absent 3 =
      ⟨MetaFile.absent, [], []⟩ :=
  ⟨by decide, c7_delete_out_of_range (fun _ => none) MetaFile.absent 3 (by decide)⟩

/-- Claim C9: when the asset-store delete raises, the error is not
propagated: `delete_item` still returns, the failure is downgraded to
one warning, and the metadata row is removed and persisted exactly as in
the non-failing case. -/
theorem c9_destroy_failure_tolerated (st : MetaFile) (i : Nat) (e : String)
    (h : i < (load_metadata st).length) :
    delete_item (fun _ => some e) st i =
      ⟨MetaFile.stored (loadedColumns st) ((load_metadata st).eraseIdx i),
       [((load_metadata st).get ⟨i, h⟩).publicId],
       ["Could not delete from Cloudinary: " ++ e]⟩ ∧
    (delete_item (fun _ => some e) st i).newState =
      (delete_item (fun _ => none) st i).newState ∧
    load_metadata (delete_item (fun _ => some e) st i).newState =
      (load_metadata st).eraseIdx i := by
  have hbad : delete_item (fun _ => some e) st i =
      ⟨MetaFile.stored (loadedColumns st) ((load_metadata st).eraseIdx i),
       [((load_metadata st).get ⟨i, h⟩).publicId],
       ["Could not delete from Cloudinary: " ++ e]⟩ := by
    unfold delete_item
    rw [dif_pos h]
  have hok : delete_item (fun _ => none) st i =
      ⟨MetaFile.stored (loadedColumns st) ((load_metadata st).eraseIdx i),
       [((load_metadata st).get ⟨i, h⟩).publicId], []⟩ := by
    unfold delete_item
    rw [dif_pos h]
  refine ⟨hbad, ?_, ?_⟩
  · rw [hbad, hok]
  · rw [hbad]
    exact load_metadata_stored_loadedColumns st _

/-- Witness for C9: the one-row scenario with a failing asset delete. -/
theorem c9_destroy_failure_tolerated_witness :
    0 < (load_metadata oneRowStore).length ∧
    (delete_item (fun _ => some "boom") oneRowStore 0 =
      ⟨MetaFile.stored (loadedColumns oneRowStore)
        ((load_metadata oneRowStore).eraseIdx 0),
       [((load_metadata oneRowStore).get ⟨0, by decide⟩).publicId],
       ["Could not delete from Cloudinary: " ++ "boom"]⟩ ∧
    (delete_item (fun _ => some "boom") oneRowStore 0).newState =
      (delete_item (fun _ => none) oneRowStore 0).newState ∧
    load_metadata (delete_item (fun _ => some "boom") oneRowStore 0).newState =
      (load_metadata oneRowStore).eraseIdx 0) :=
  ⟨by decide, c9_destroy_failure_tolerated oneRowStore 0 "boom" (by decide)⟩
